import Mathlib

/-!
WiFi heart-rate sketch: embedding and verified properties.

Shallow embedding of `src/arduino_code/sample_code.c++`.

The sketch talks to three devices (the serial console, the WiFi station driver
and the WebSocket listener).  Every call on one of them is recorded, in program
order, in the `trace` of a `World`; the serial log, the frames sent and the
delays requested are read off that trace.  The answers of `WiFi.status()` are an
input of the model: a stream `status : Nat → wl_status_t` giving the result of
the poll with index 0, 1, 2, ...  The join loop of `setup` may run forever, so
it takes a budget of status polls and returns `none` when the budget is used up
before the loop has exited.
-/

namespace Sketch

/-! ## Library types used by the sketch -/

/-- Modelled from the spec: the event kinds of the listener.  The enumeration
`WStype_t` is declared in the header `WebSocketsServer.h`, which is not part of the
repository; the sketch names two of its values (`WStype_CONNECTED`, `WStype_TEXT`)
and the spec lists the others as disconnect, binary, error, ping and pong, to which
the fragment kinds of the header are added.  Only the handler's two comparisons
look at a value of this type. -/
inductive WStype_t
  | WStype_ERROR
  | WStype_DISCONNECTED
  | WStype_CONNECTED
  | WStype_TEXT
  | WStype_BIN
  | WStype_FRAGMENT_TEXT_START
  | WStype_FRAGMENT_BIN_START
  | WStype_FRAGMENT
  | WStype_FRAGMENT_FIN
  | WStype_PING
  | WStype_PONG
  deriving DecidableEq, Repr

/-- Modelled from the spec: the results of a connection status poll.  The
enumeration `wl_status_t` is declared in `ESP8266WiFi.h`, which is not part of the
repository; the sketch names one value, `WL_CONNECTED` (the spec's "connected"),
and compares every poll result with it. -/
inductive wl_status_t
  | WL_IDLE_STATUS
  | WL_NO_SSID_AVAIL
  | WL_SCAN_COMPLETED
  | WL_CONNECTED
  | WL_CONNECT_FAILED
  | WL_CONNECTION_LOST
  | WL_WRONG_PASSWORD
  | WL_DISCONNECTED
  | WL_NO_SHIELD
  deriving DecidableEq, Repr

open WStype_t wl_status_t

/-- One call of the sketch on a device, with its arguments (for a status poll:
with the result the driver gave). -/
inductive Action
  | serialBegin (baud : Nat)
  | wifiBegin (ssid password : String)
  | wifiStatus (result : wl_status_t)
  | delay (ms : Nat)
  | serialPrintln (line : String)
  | wsBegin (port : Nat)
  | wsOnEvent
  | wsLoop
  | wsSendTXT (num : Nat) (data : String)
  deriving DecidableEq, Repr

/-- The state the sketch acts on: how many status polls were made, whether the
listener was started, whether `webSocketEvent` was registered with it, and the
calls made so far, oldest first. -/
structure World where
  polls : Nat
  listening : Bool
  handlerSet : Bool
  trace : List Action
  deriving DecidableEq, Repr

/-- The state at power-up: nothing polled, nothing started, nothing done. -/
def boot : World := World.mk 0 false false []

/-- An event handed to the handler: `(num, type, payload, length)`.  `num` is a
`uint8_t` in the source; it is only passed on, never computed with, and is a
natural number here (the values below 256 are the ones the listener can pass).
The payload is a sequence of bytes and `length` the separate `size_t`. -/
structure Event where
  num : Nat
  type : WStype_t
  payload : List Nat
  length : Nat
  deriving DecidableEq, Repr

/-! ## Device calls -/

/-- The call `Serial.begin(baud)`. -/
def Serial_begin (baud : Nat) (w : World) : World :=
  { w with trace := w.trace ++ [Action.serialBegin baud] }

/-- The call `Serial.println(line)`: one line on the serial console. -/
def Serial_println (line : String) (w : World) : World :=
  { w with trace := w.trace ++ [Action.serialPrintln line] }

/-- The call `WiFi.begin(ssid, password)`. -/
def WiFi_begin (name pass : String) (w : World) : World :=
  { w with trace := w.trace ++ [Action.wifiBegin name pass] }

/-- The call `WiFi.status()`: the next result of the stream, and the state with
one more poll made. -/
def WiFi_status (status : Nat → wl_status_t) (w : World) : wl_status_t × World :=
  (status w.polls,
   { w with polls := w.polls + 1, trace := w.trace ++ [Action.wifiStatus (status w.polls)] })

/-- The call `delay(ms)`. -/
def delay (ms : Nat) (w : World) : World :=
  { w with trace := w.trace ++ [Action.delay ms] }

/-- The listener object; the constructor argument is its TCP port. -/
structure WebSocketsServer where
  port : Nat
  deriving DecidableEq, Repr

/-- The call `webSocket.begin()`: the listener starts on its port. -/
def WebSocketsServer.begin (srv : WebSocketsServer) (w : World) : World :=
  { w with listening := true, trace := w.trace ++ [Action.wsBegin srv.port] }

/-- The call `webSocket.onEvent(webSocketEvent)`: the handler is registered. -/
def WebSocketsServer.onEvent (_srv : WebSocketsServer) (w : World) : World :=
  { w with handlerSet := true, trace := w.trace ++ [Action.wsOnEvent] }

/-- The call `webSocket.sendTXT(num, data)`: one text frame to client `num`. -/
def WebSocketsServer.sendTXT (_srv : WebSocketsServer) (num : Nat) (data : String)
    (w : World) : World :=
  { w with trace := w.trace ++ [Action.wsSendTXT num data] }

/-! ## The sketch -/

/-- The constant `ssid`. -/
def ssid : String := "Your_SSID"

/-- The constant `password`. -/
def password : String := "Your_PASSWORD"

/-- The global `WebSocketsServer webSocket = WebSocketsServer(81);`. -/
def webSocket : WebSocketsServer := WebSocketsServer.mk 81

/-- The handler `webSocketEvent(num, type, payload, length)`. -/
def webSocketEvent (num : Nat) (type : WStype_t) (_payload : List Nat) (_length : Nat)
    (w : World) : World :=
  if type = WStype_CONNECTED then
    Serial_println "Client connected" w
  else if type = WStype_TEXT then
    let data : String := "\x7b\"heart_rate\": 72, \"temperature\": 36.5\x7d"
    webSocket.sendTXT num data w
  else
    w

/-- The loop `while (WiFi.status() != WL_CONNECTED) { delay(1000); Serial.println(...); }`
of `setup`.  Each evaluation of the condition is one status poll and uses one unit of
`fuel`; `none` means that `fuel` polls were made and the loop has not exited. -/
def joinLoop (status : Nat → wl_status_t) : Nat → World → Option World
  | 0, _ => none
  | fuel + 1, w =>
    let r := WiFi_status status w
    if r.1 ≠ WL_CONNECTED then
      joinLoop status fuel (Serial_println "Connecting to WiFi..." (delay 1000 r.2))
    else
      some r.2

/-- The function `setup()`, with a budget of `fuel` status polls for its loop. -/
def setup (status : Nat → wl_status_t) (fuel : Nat) (w : World) : Option World :=
  let w1 := Serial_begin 115200 w
  let w2 := WiFi_begin ssid password w1
  match joinLoop status fuel w2 with
  | none => none
  | some w3 =>
    let w4 := Serial_println "Connected to WiFi" w3
    let w5 := webSocket.begin w4
    some (webSocket.onEvent w5)

/-- The handler run on a sequence of events, in order. -/
def dispatch (events : List Event) (w : World) : World :=
  events.foldl (fun acc e => webSocketEvent e.num e.type e.payload e.length acc) w

/-- Modelled from the spec: the listener's dispatch step `webSocket.loop()`, which
belongs to the WebSocket library and is not part of the repository.  Section 5: it
"invokes the registered handler synchronously and to completion before returning";
`pending` are the events the network stack has for this step, and nothing is
dispatched unless the listener was started and a handler registered. -/
def WebSocketsServer.loop (_srv : WebSocketsServer) (pending : List Event) (w : World) : World :=
  let w1 : World := { w with trace := w.trace ++ [Action.wsLoop] }
  if w.listening && w.handlerSet then dispatch pending w1 else w1

/-- The function `loop()`; `pending` are the events that arrive during this call. -/
def loop (pending : List Event) (w : World) : World :=
  webSocket.loop pending w

/-- Modelled from the spec: the control flow "device boot, network join, service
loop" of the board's runtime, which calls `setup()` once and then `loop()` again and
again; it is not part of the repository.  `rounds` lists, for each call of `loop()`
that is observed, the events arriving during it. -/
def arduinoMain (status : Nat → wl_status_t) (fuel : Nat) (rounds : List (List Event)) :
    Option World :=
  (setup status fuel boot).map (fun w => rounds.foldl (fun acc evs => loop evs acc) w)

/-! ## Observations on a trace -/

/-- The lines written to the serial console, oldest first. -/
def serialLines (w : World) : List String :=
  w.trace.filterMap (fun a => match a with
    | Action.serialPrintln s => some s
    | _ => none)

/-- The text frames sent, oldest first, each with the client it is addressed to. -/
def framesSent (w : World) : List (Nat × String) :=
  w.trace.filterMap (fun a => match a with
    | Action.wsSendTXT n d => some (n, d)
    | _ => none)

/-- The delays requested, in milliseconds, oldest first. -/
def delaysRequested (w : World) : List Nat :=
  w.trace.filterMap (fun a => match a with
    | Action.delay ms => some ms
    | _ => none)

/-- The results of the status polls, oldest first. -/
def statusPolled (w : World) : List wl_status_t :=
  w.trace.filterMap (fun a => match a with
    | Action.wifiStatus r => some r
    | _ => none)

/-- Whether an action is a call on the WebSocket listener. -/
def Action.isListener : Action → Bool
  | Action.wsBegin _ => true
  | Action.wsOnEvent => true
  | Action.wsLoop => true
  | Action.wsSendTXT _ _ => true
  | _ => false

/-- Whether an action is a status poll. -/
def Action.isPoll : Action → Bool
  | Action.wifiStatus _ => true
  | _ => false

/-- An action of the service phase: a call on the listener, or the handler's log
line. -/
def Action.isService (a : Action) : Bool :=
  a.isListener || decide (a = Action.serialPrintln "Client connected")

/-- An action of the join phase: a status poll, or the line that reports the join. -/
def Action.isJoin (a : Action) : Bool :=
  a.isPoll || decide (a = Action.serialPrintln "Connected to WiFi")

/-- The reply the handler is specified to give: the 39 characters of the JSON text,
by their code points (123 and 125 are the braces, 34 the double quote). -/
def replyCodes : List Nat :=
  [123, 34, 104, 101, 97, 114, 116, 95, 114, 97, 116, 101, 34, 58, 32, 55, 50, 44, 32,
   34, 116, 101, 109, 112, 101, 114, 97, 116, 117, 114, 101, 34, 58, 32, 51, 54, 46, 53, 125]

/-- The reply as a string. -/
def replyText : String := String.mk (replyCodes.map Char.ofNat)

/-- The actions of the first `n` turns of the join loop when the polls so far
number `p`: a poll, the delay and the progress line, `n` times. -/
def joinTurns (status : Nat → wl_status_t) : Nat → Nat → List Action
  | _, 0 => []
  | p, n + 1 =>
    [Action.wifiStatus (status p), Action.delay 1000,
      Action.serialPrintln "Connecting to WiFi..."] ++ joinTurns status (p + 1) n

/-- The effects of handling one event on its own: the actions it adds to an empty
trace. -/
def effectsOf (e : Event) : List Action :=
  (webSocketEvent e.num e.type e.payload e.length boot).trace

/-- What an event kind and client number are specified to cause: a log line for a
connect, the reply frame for a text message, nothing otherwise. -/
def specEffects (num : Nat) (type : WStype_t) : List Action :=
  match type with
  | WStype_CONNECTED => [Action.serialPrintln "Client connected"]
  | WStype_TEXT => [Action.wsSendTXT num replyText]
  | _ => []

/-! ## The run observed before `setup` has returned -/

/-- The join loop of `setup` again, statement for statement as in `joinLoop`, but giving
the state reached when the budget of `fuel` polls is used up instead of dropping it:
the flag tells whether the loop has exited. -/
def joinLoopReach (status : Nat → wl_status_t) : Nat → World → World × Bool
  | 0, w => (w, false)
  | fuel + 1, w =>
    let r := WiFi_status status w
    if r.1 ≠ WL_CONNECTED then
      joinLoopReach status fuel (Serial_println "Connecting to WiFi..." (delay 1000 r.2))
    else
      (r.2, true)

/-- The function `setup()` again, statement for statement as in `setup`, giving the
state reached within `fuel` status polls and whether `setup` has returned: while the
loop has not exited, the statements after it have not run. -/
def setupReach (status : Nat → wl_status_t) (fuel : Nat) (w : World) : World × Bool :=
  let w1 := Serial_begin 115200 w
  let w2 := WiFi_begin ssid password w1
  match joinLoopReach status fuel w2 with
  | (w3, false) => (w3, false)
  | (w3, true) =>
    let w4 := Serial_println "Connected to WiFi" w3
    let w5 := webSocket.begin w4
    (webSocket.onEvent w5, true)

/-- Modelled from the spec: the run of the board as in `arduinoMain`, observed also
while `setup` has not returned; `loop()` is not called before `setup()` has returned
(section 2: "device boot, network join (blocking), service loop"). -/
def arduinoReach (status : Nat → wl_status_t) (fuel : Nat) (rounds : List (List Event)) :
    World :=
  match setupReach status fuel boot with
  | (w, false) => w
  | (w, true) => rounds.foldl (fun acc evs => loop evs acc) w

/-- The order the join imposes on a trace `t`: before every service action (a call on
the listener or a log line of the handler) stand a status poll with result
`WL_CONNECTED` and, after that poll, the line "Connected to WiFi"; that poll is the
last status poll of the trace and that line the last action of the join. -/
def joinPrecedes (t : List Action) : Prop :=
  ∀ (i : Nat) (a : Action), t[i]? = some a → a.isService = true →
    ∃ k m, k < m ∧ m < i
      ∧ t[k]? = some (Action.wifiStatus WL_CONNECTED)
      ∧ t[m]? = some (Action.serialPrintln "Connected to WiFi")
      ∧ (∀ (j : Nat) (b : Action), t[j]? = some b → b.isPoll = true → j ≤ k)
      ∧ (∀ (j : Nat) (b : Action), t[j]? = some b → b.isJoin = true → j ≤ m)

/-! ## The handler -/

/-- The text the handler sends is the reply text, code point for code point. -/
theorem reply_literal :
    "\x7b\"heart_rate\": 72, \"temperature\": 36.5\x7d" = replyText := by
  decide

/-- The handler adds to the trace the actions its event kind is specified to cause,
and changes nothing else. -/
theorem webSocketEvent_eq (num : Nat) (type : WStype_t) (payload : List Nat) (length : Nat)
    (w : World) :
    webSocketEvent num type payload length w
      = { w with trace := w.trace ++ specEffects num type } := by
  cases type <;>
    simp [webSocketEvent, specEffects, Serial_println, WebSocketsServer.sendTXT, reply_literal]

theorem webSocketEvent_trace (num : Nat) (type : WStype_t) (payload : List Nat) (length : Nat)
    (w : World) :
    (webSocketEvent num type payload length w).trace = w.trace ++ specEffects num type := by
  rw [webSocketEvent_eq]

theorem serialLines_append (w : World) (l : List Action) :
    serialLines { w with trace := w.trace ++ l }
      = serialLines w ++ serialLines (World.mk 0 false false l) := by
  simp [serialLines, List.filterMap_append]

theorem framesSent_append (w : World) (l : List Action) :
    framesSent { w with trace := w.trace ++ l }
      = framesSent w ++ framesSent (World.mk 0 false false l) := by
  simp [framesSent, List.filterMap_append]

/-- C1: for every client number, payload and length, a text event makes the handler
send exactly one frame, added after the frames already sent, whose content is the
JSON reply, character for character (39 characters, one space after each colon and
after the comma); the resulting state is the same for any other payload and length. -/
theorem text_event_reply (num : Nat) (payload : List Nat) (length : Nat) (w : World) :
    framesSent (webSocketEvent num WStype_TEXT payload length w)
        = framesSent w ++ [(num, "\x7b\"heart_rate\": 72, \"temperature\": 36.5\x7d")]
      ∧ ("\x7b\"heart_rate\": 72, \"temperature\": 36.5\x7d").toList.map Char.toNat = replyCodes
      ∧ (∀ (payload2 : List Nat) (length2 : Nat),
          webSocketEvent num WStype_TEXT payload2 length2 w
            = webSocketEvent num WStype_TEXT payload length w)
      ∧ webSocketEvent num WStype_TEXT [] 0 w
          = webSocketEvent num WStype_TEXT payload length w := by
  refine ⟨?_, by decide, ?_, ?_⟩
  · rw [webSocketEvent_eq, framesSent_append]
    simp [specEffects, framesSent, reply_literal]
  · intro payload2 length2
    rw [webSocketEvent_eq, webSocketEvent_eq]
  · rw [webSocketEvent_eq, webSocketEvent_eq]

/-- C2: on a text event with client number `num` the handler's only action is one
frame addressed to `num`: the clients addressed are those addressed before followed
by `num` alone, and the serial log is unchanged. -/
theorem text_event_addressee (num : Nat) (payload : List Nat) (length : Nat) (w : World) :
    (∃ data, (webSocketEvent num WStype_TEXT payload length w).trace
        = w.trace ++ [Action.wsSendTXT num data])
      ∧ (framesSent (webSocketEvent num WStype_TEXT payload length w)).map Prod.fst
        = (framesSent w).map Prod.fst ++ [num]
      ∧ serialLines (webSocketEvent num WStype_TEXT payload length w) = serialLines w := by
  refine ⟨⟨replyText, ?_⟩, ?_, ?_⟩
  · rw [webSocketEvent_trace]; rfl
  · rw [webSocketEvent_eq, framesSent_append]
    simp [specEffects, framesSent]
  · rw [webSocketEvent_eq, serialLines_append]
    simp [specEffects, serialLines]

/-- C3: on a connect event, for every client number and payload, the handler sends no
frame and writes exactly one serial line, "Client connected"; that line is its only
action. -/
theorem connect_event_logs (num : Nat) (payload : List Nat) (length : Nat) (w : World) :
    framesSent (webSocketEvent num WStype_CONNECTED payload length w) = framesSent w
      ∧ serialLines (webSocketEvent num WStype_CONNECTED payload length w)
        = serialLines w ++ ["Client connected"]
      ∧ (webSocketEvent num WStype_CONNECTED payload length w).trace
        = w.trace ++ [Action.serialPrintln "Client connected"] := by
  refine ⟨?_, ?_, ?_⟩
  · rw [webSocketEvent_eq, framesSent_append]
    simp [specEffects, framesSent]
  · rw [webSocketEvent_eq, serialLines_append]
    simp [specEffects, serialLines]
  · rw [webSocketEvent_trace]; rfl

/-- C4: for every event kind other than connect and text, every client number and
every payload, the handler returns the state it was given: no frame, no serial line,
no other action. -/
theorem other_event_noop (num : Nat) (type : WStype_t) (payload : List Nat) (length : Nat)
    (w : World) (hc : type ≠ WStype_CONNECTED) (ht : type ≠ WStype_TEXT) :
    webSocketEvent num type payload length w = w
      ∧ framesSent (webSocketEvent num type payload length w) = framesSent w
      ∧ serialLines (webSocketEvent num type payload length w) = serialLines w := by
  have h : webSocketEvent num type payload length w = w := by
    simp [webSocketEvent, hc, ht]
  simp [h]

/-- C4 at a ping from client 7 with a two-byte payload, after one frame was sent. -/
theorem other_event_noop_witness :
    webSocketEvent 7 WStype_PING [1, 2] 2 (webSocket.sendTXT 7 "x" boot)
        = webSocket.sendTXT 7 "x" boot
      ∧ framesSent (webSocketEvent 7 WStype_PING [1, 2] 2 (webSocket.sendTXT 7 "x" boot))
        = framesSent (webSocket.sendTXT 7 "x" boot)
      ∧ serialLines (webSocketEvent 7 WStype_PING [1, 2] 2 (webSocket.sendTXT 7 "x" boot))
        = serialLines (webSocket.sendTXT 7 "x" boot) :=
  other_event_noop 7 WStype_PING [1, 2] 2 (webSocket.sendTXT 7 "x" boot)
    (by decide) (by decide)

/-! ## Sequences of events -/

theorem dispatch_cons (e : Event) (events : List Event) (w : World) :
    dispatch (e :: events) w
      = dispatch events (webSocketEvent e.num e.type e.payload e.length w) :=
  rfl

/-- Handling a sequence of events adds to the trace the specified effects of each
event, in order, and changes nothing else. -/
theorem dispatch_eq (events : List Event) (w : World) :
    dispatch events w
      = { w with trace := w.trace ++ events.flatMap (fun e => specEffects e.num e.type) } := by
  induction events generalizing w with
  | nil => simp [dispatch]
  | cons e events ih =>
    rw [dispatch_cons, ih, webSocketEvent_eq]
    simp [List.append_assoc]

theorem framesSent_dispatch (events : List Event) (w : World) :
    framesSent (dispatch events w)
      = framesSent w ++ (events.filter (fun e => e.type = WStype_TEXT)).map
          (fun e => (e.num, replyText)) := by
  induction events generalizing w with
  | nil => simp [dispatch]
  | cons e events ih =>
    rw [dispatch_cons, ih, webSocketEvent_eq, framesSent_append]
    rcases e with ⟨n, t, p, l⟩
    cases t <;> simp [specEffects, framesSent]

theorem serialLines_dispatch (events : List Event) (w : World) :
    serialLines (dispatch events w)
      = serialLines w ++ List.replicate
          (events.countP (fun e => e.type = WStype_CONNECTED)) "Client connected" := by
  induction events generalizing w with
  | nil => simp [dispatch]
  | cons e events ih =>
    rw [dispatch_cons, ih, webSocketEvent_eq, serialLines_append]
    rcases e with ⟨n, t, p, l⟩
    cases t <;> simp [specEffects, serialLines, List.countP_cons, List.replicate_succ]

theorem loop_eq (pending : List Event) (w : World) (hl : w.listening = true)
    (hh : w.handlerSet = true) :
    loop pending w = dispatch pending { w with trace := w.trace ++ [Action.wsLoop] } := by
  simp [loop, WebSocketsServer.loop, hl, hh]

/-- C5: for every finite sequence of events handled in order, the frames sent are, in
order, one frame (client number, JSON reply) per text event of the sequence and no
other; so the number of frames sent is the number of text events, a sequence without
a text event sends no frame, and one line "Client connected" is logged per connect
event.  The same holds for one call of `loop()` on a started listener with the handler
registered. -/
theorem dispatch_frames (events : List Event) (w : World) :
    framesSent (dispatch events w)
        = framesSent w ++ (events.filter (fun e => e.type = WStype_TEXT)).map
            (fun e => (e.num, "\x7b\"heart_rate\": 72, \"temperature\": 36.5\x7d"))
      ∧ (framesSent (dispatch events w)).length
        = (framesSent w).length + events.countP (fun e => e.type = WStype_TEXT)
      ∧ serialLines (dispatch events w)
        = serialLines w ++ List.replicate
            (events.countP (fun e => e.type = WStype_CONNECTED)) "Client connected"
      ∧ ((∀ e ∈ events, e.type ≠ WStype_TEXT) →
          framesSent (dispatch events w) = framesSent w)
      ∧ (w.listening = true → w.handlerSet = true →
          framesSent (loop events w)
            = framesSent w ++ (events.filter (fun e => e.type = WStype_TEXT)).map
                (fun e => (e.num, "\x7b\"heart_rate\": 72, \"temperature\": 36.5\x7d"))) := by
  have hf := framesSent_dispatch events w
  refine ⟨?_, ?_, serialLines_dispatch events w, ?_, ?_⟩
  · rw [hf, reply_literal]
  · rw [hf, List.length_append, List.length_map, List.countP_eq_length_filter]
  · intro hno
    rw [hf]
    have : events.filter (fun e => e.type = WStype_TEXT) = [] := by
      rw [List.filter_eq_nil_iff]
      intro e he
      simpa using hno e he
    simp [this]
  · intro hl hh
    rw [loop_eq events w hl hh, framesSent_dispatch, reply_literal]
    simp [framesSent, List.filterMap_append]

/-- C5 at a connect followed by a disconnect of client 4, from power-up: no frame is
sent and one line is logged. -/
theorem dispatch_frames_witness :
    framesSent (dispatch [Event.mk 4 WStype_CONNECTED [] 0,
        Event.mk 4 WStype_DISCONNECTED [] 0] boot) = []
      ∧ serialLines (dispatch [Event.mk 4 WStype_CONNECTED [] 0,
        Event.mk 4 WStype_DISCONNECTED [] 0] boot) = ["Client connected"] :=
  ⟨(dispatch_frames [Event.mk 4 WStype_CONNECTED [] 0,
      Event.mk 4 WStype_DISCONNECTED [] 0] boot).2.2.2.1 (by decide),
    (dispatch_frames [Event.mk 4 WStype_CONNECTED [] 0,
      Event.mk 4 WStype_DISCONNECTED [] 0] boot).2.2.1⟩

/-- C10: the handler keeps no state and is deterministic: what it adds to the trace is
fixed by the event kind and the client number alone, whatever the payload, the length
and the state before (which it otherwise leaves as it was); so handling a sequence of
events adds the concatenation of the effects each event has when handled alone. -/
theorem handler_stateless (events : List Event) (w : World) :
    (∀ (e : Event) (v : World),
        webSocketEvent e.num e.type e.payload e.length v
          = { v with trace := v.trace ++ effectsOf e })
      ∧ (∀ (e : Event) (payload2 : List Nat) (length2 : Nat),
          effectsOf (Event.mk e.num e.type payload2 length2) = effectsOf e)
      ∧ (∀ e : Event, effectsOf e = specEffects e.num e.type)
      ∧ (dispatch events w).trace = w.trace ++ events.flatMap effectsOf
      ∧ dispatch events w = { w with trace := w.trace ++ events.flatMap effectsOf } := by
  have he : ∀ e : Event, effectsOf e = specEffects e.num e.type := by
    intro e
    simp [effectsOf, webSocketEvent_eq, boot]
  have hfun : effectsOf = fun e => specEffects e.num e.type := funext he
  refine ⟨?_, ?_, he, ?_, ?_⟩
  · intro e v
    rw [he, webSocketEvent_eq]
  · intro e payload2 length2
    rw [he, he]
  · rw [dispatch_eq, hfun]
  · rw [dispatch_eq, hfun]

/-! ## The join loop -/

theorem joinLoop_succ (status : Nat → wl_status_t) (fuel : Nat) (w : World) :
    joinLoop status (fuel + 1) w
      = if status w.polls ≠ WL_CONNECTED then
          joinLoop status fuel
            { w with
              polls := w.polls + 1
              trace := w.trace ++ [Action.wifiStatus (status w.polls), Action.delay 1000,
                Action.serialPrintln "Connecting to WiFi..."] }
        else
          some { w with
            polls := w.polls + 1
            trace := w.trace ++ [Action.wifiStatus (status w.polls)] } := by
  simp [joinLoop, WiFi_status, Serial_println, delay]

/-- While no poll has reported connected, the loop has not exited. -/
theorem joinLoop_none (status : Nat → wl_status_t) (k : Nat) (w : World)
    (h : ∀ i, i < k → status (w.polls + i) ≠ WL_CONNECTED) :
    joinLoop status k w = none := by
  induction k generalizing w with
  | zero => rfl
  | succ k ih =>
    have h0 : status w.polls ≠ WL_CONNECTED := by simpa using h 0 (Nat.succ_pos k)
    rw [joinLoop_succ, if_pos h0]
    apply ih
    intro i hi
    have := h (i + 1) (Nat.succ_lt_succ hi)
    simpa [Nat.add_assoc, Nat.add_comm 1 i] using this

/-- When the first connected result is `n` polls ahead, any budget above `n` lets the
loop exit, after `n` full turns and one last poll. -/
theorem joinLoop_some (status : Nat → wl_status_t) (n fuel : Nat) (w : World)
    (hn : status (w.polls + n) = WL_CONNECTED)
    (hfirst : ∀ i, i < n → status (w.polls + i) ≠ WL_CONNECTED) (hfuel : n < fuel) :
    joinLoop status fuel w
      = some { w with
          polls := w.polls + n + 1
          trace := w.trace ++ joinTurns status w.polls n
            ++ [Action.wifiStatus WL_CONNECTED] } := by
  induction n generalizing w fuel with
  | zero =>
    obtain ⟨fuel, rfl⟩ : ∃ m, fuel = m + 1 := ⟨fuel - 1, by omega⟩
    have h0 : status w.polls = WL_CONNECTED := by simpa using hn
    rw [joinLoop_succ]
    simp [h0, joinTurns]
  | succ n ih =>
    obtain ⟨fuel, rfl⟩ : ∃ m, fuel = m + 1 := ⟨fuel - 1, by omega⟩
    have h0 : status w.polls ≠ WL_CONNECTED := by simpa using hfirst 0 (Nat.succ_pos n)
    rw [joinLoop_succ, if_pos h0]
    rw [ih fuel _ (by simpa [Nat.add_assoc, Nat.add_comm 1 n] using hn)
      (by
        intro i hi
        have := hfirst (i + 1) (Nat.succ_lt_succ hi)
        simpa [Nat.add_assoc, Nat.add_comm 1 i] using this)
      (by omega)]
    simp [joinTurns, Nat.add_assoc, Nat.add_comm 1 n]

/-- If the loop exits, some poll within the budget was the first to report
connected. -/
theorem joinLoop_exit (status : Nat → wl_status_t) (fuel : Nat) (w v : World)
    (h : joinLoop status fuel w = some v) :
    ∃ n, n < fuel ∧ status (w.polls + n) = WL_CONNECTED
      ∧ ∀ i, i < n → status (w.polls + i) ≠ WL_CONNECTED := by
  by_contra hne
  have hall : ∀ i, i < fuel → status (w.polls + i) ≠ WL_CONNECTED := by
    intro i
    induction i using Nat.strong_induction_on with
    | _ i ih =>
      intro hi hc
      exact hne ⟨i, hi, hc, fun j hj => ih j hj (Nat.lt_trans hj hi)⟩
  rw [joinLoop_none status fuel w hall] at h
  exact Option.noConfusion h

/-! ## What the join turns show on each device -/

theorem serialLines_joinTurns (status : Nat → wl_status_t) (p n : Nat) (c : Nat)
    (l h : Bool) :
    serialLines (World.mk c l h (joinTurns status p n))
      = List.replicate n "Connecting to WiFi..." := by
  induction n generalizing p with
  | zero => rfl
  | succ n ih =>
    have := ih (p + 1)
    simp only [serialLines] at this
    simp [serialLines, joinTurns, List.replicate_succ, this]

theorem delaysRequested_joinTurns (status : Nat → wl_status_t) (p n : Nat) (c : Nat)
    (l h : Bool) :
    delaysRequested (World.mk c l h (joinTurns status p n)) = List.replicate n 1000 := by
  induction n generalizing p with
  | zero => rfl
  | succ n ih =>
    have := ih (p + 1)
    simp only [delaysRequested] at this
    simp [delaysRequested, joinTurns, List.replicate_succ, this]

theorem statusPolled_joinTurns (status : Nat → wl_status_t) (p n : Nat) (c : Nat)
    (l h : Bool) :
    statusPolled (World.mk c l h (joinTurns status p n))
      = (List.range n).map (fun i => status (p + i)) := by
  induction n generalizing p with
  | zero => rfl
  | succ n ih =>
    have := ih (p + 1)
    simp only [statusPolled] at this
    simp [statusPolled, joinTurns, List.range_succ_eq_map, this, Function.comp_def,
      Nat.add_assoc, Nat.add_comm 1]

theorem joinTurns_not_service (status : Nat → wl_status_t) (p n : Nat) :
    ∀ a ∈ joinTurns status p n, a.isService = false := by
  induction n generalizing p with
  | zero => simp [joinTurns]
  | succ n ih =>
    intro a ha
    simp only [joinTurns, List.mem_append, List.mem_cons, List.mem_singleton,
      List.not_mem_nil, or_false] at ha
    rcases ha with (rfl | rfl | rfl) | ha
    · rfl
    · rfl
    · decide
    · exact ih (p + 1) a ha

/-! ## The whole of `setup` -/

/-- The state `setup` returns when the first connected result has index `n`. -/
theorem setup_some (status : Nat → wl_status_t) (n fuel : Nat)
    (hn : status n = WL_CONNECTED) (hfirst : ∀ i, i < n → status i ≠ WL_CONNECTED)
    (hfuel : n < fuel) :
    setup status fuel boot
      = some (World.mk (n + 1) true true
          ([Action.serialBegin 115200, Action.wifiBegin ssid password]
            ++ joinTurns status 0 n
            ++ [Action.wifiStatus WL_CONNECTED, Action.serialPrintln "Connected to WiFi",
                Action.wsBegin 81, Action.wsOnEvent])) := by
  have h := joinLoop_some status n fuel (WiFi_begin ssid password (Serial_begin 115200 boot))
    (by simpa [WiFi_begin, Serial_begin, boot] using hn)
    (by simpa [WiFi_begin, Serial_begin, boot] using hfirst) hfuel
  simp only [setup, h]
  simp [WiFi_begin, Serial_begin, boot, Serial_println, WebSocketsServer.begin,
    WebSocketsServer.onEvent, webSocket]

theorem setup_none (status : Nat → wl_status_t) (k : Nat)
    (h : ∀ i, i < k → status i ≠ WL_CONNECTED) :
    setup status k boot = none := by
  have h1 := joinLoop_none status k (WiFi_begin ssid password (Serial_begin 115200 boot))
    (by simpa [WiFi_begin, Serial_begin, boot] using h)
  simp only [setup, h1]

/-- If `setup` returns, some poll within the budget was the first to report
connected. -/
theorem setup_exit (status : Nat → wl_status_t) (fuel : Nat) (v : World)
    (h : setup status fuel boot = some v) :
    ∃ n, n < fuel ∧ status n = WL_CONNECTED ∧ ∀ i, i < n → status i ≠ WL_CONNECTED := by
  cases hj : joinLoop status fuel (WiFi_begin ssid password (Serial_begin 115200 boot)) with
  | none => simp [setup, hj] at h
  | some u =>
    have := joinLoop_exit status fuel _ u hj
    simpa [WiFi_begin, Serial_begin, boot] using this

/-- C6: when the first connected result of the status polls has index `n`, `setup` has
not returned within `n` polls and returns with any larger budget, having made exactly
`n + 1` polls (those of index 0 to `n`) and written exactly `n` lines
"Connecting to WiFi..." followed by one line "Connected to WiFi"; with `n = 0` no
"Connecting to WiFi..." line is written. -/
theorem join_polls_and_log (status : Nat → wl_status_t) (n : Nat)
    (hn : status n = WL_CONNECTED) (hfirst : ∀ i, i < n → status i ≠ WL_CONNECTED) :
    (∀ fuel, fuel ≤ n → setup status fuel boot = none)
      ∧ (∀ fuel, n < fuel → ∃ w, setup status fuel boot = some w
          ∧ w.polls = n + 1
          ∧ statusPolled w = (List.range (n + 1)).map status
          ∧ serialLines w
            = List.replicate n "Connecting to WiFi..." ++ ["Connected to WiFi"]
          ∧ (n = 0 → "Connecting to WiFi..." ∉ serialLines w)) := by
  constructor
  · intro fuel hle
    exact setup_none status fuel (fun i hi => hfirst i (Nat.lt_of_lt_of_le hi hle))
  · intro fuel hfuel
    refine ⟨_, setup_some status n fuel hn hfirst hfuel, rfl, ?_, ?_, ?_⟩
    · have h := statusPolled_joinTurns status 0 n 0 false false
      simp only [statusPolled] at h
      simp [statusPolled, List.filterMap_append, h, List.range_succ, hn]
    · have h := serialLines_joinTurns status 0 n 0 false false
      simp only [serialLines] at h
      simp [serialLines, List.filterMap_append, h]
    · intro h0
      subst h0
      simp [serialLines, joinTurns]

/-- C6 at a stream that reports disconnected twice and connected from then on, with a
budget of five polls. -/
theorem join_polls_and_log_witness :
    ∃ w, setup (fun i => if i < 2 then WL_DISCONNECTED else WL_CONNECTED) 5 boot = some w
      ∧ w.polls = 3
      ∧ serialLines w
        = ["Connecting to WiFi...", "Connecting to WiFi...", "Connected to WiFi"] := by
  obtain ⟨w, hw, hp, _, hs, _⟩ :=
    (join_polls_and_log (fun i => if i < 2 then WL_DISCONNECTED else WL_CONNECTED) 2
      (by decide) (by decide)).2 5 (by decide)
  exact ⟨w, hw, hp, hs⟩

/-- C7: the join loop has no retry cap and no failure result.  From any state, it exits
within some budget of polls if and only if some poll to come reports connected; as long
as the first `k` polls all report something else it has not exited after `k` polls,
whatever `k`; and when it exits, its last action is a poll that reported connected.  The
same holds of `setup` from power-up. -/
theorem join_unbounded (status : Nat → wl_status_t) (w : World) :
    ((∃ fuel v, joinLoop status fuel w = some v)
        ↔ ∃ i, status (w.polls + i) = WL_CONNECTED)
      ∧ (∀ k, (∀ i, i < k → status (w.polls + i) ≠ WL_CONNECTED) →
          joinLoop status k w = none)
      ∧ (∀ fuel v, joinLoop status fuel w = some v →
          v.trace.getLast? = some (Action.wifiStatus WL_CONNECTED)
            ∧ w.polls < v.polls ∧ status (v.polls - 1) = WL_CONNECTED)
      ∧ ((∃ fuel v, setup status fuel boot = some v) ↔ ∃ i, status i = WL_CONNECTED)
      ∧ (∀ k, (∀ i, i < k → status i ≠ WL_CONNECTED) → setup status k boot = none)
      ∧ (∀ fuel v, setup status fuel boot = some v →
          (statusPolled v).getLast? = some WL_CONNECTED) := by
  refine ⟨⟨?_, ?_⟩, fun k hk => joinLoop_none status k w hk, ?_, ⟨?_, ?_⟩, setup_none status, ?_⟩
  · rintro ⟨fuel, v, h⟩
    obtain ⟨n, _, hn, _⟩ := joinLoop_exit status fuel w v h
    exact ⟨n, hn⟩
  · intro hex
    refine ⟨Nat.find hex + 1, _, joinLoop_some status (Nat.find hex) _ w (Nat.find_spec hex)
      (fun i hi => Nat.find_min hex hi) (Nat.lt_succ_self _)⟩
  · intro fuel v h
    obtain ⟨n, hlt, hn, hfirst⟩ := joinLoop_exit status fuel w v h
    rw [joinLoop_some status n fuel w hn hfirst hlt] at h
    cases h
    refine ⟨List.getLast?_concat _, by simp; omega, ?_⟩
    simpa using hn
  · rintro ⟨fuel, v, h⟩
    obtain ⟨n, _, hn, _⟩ := setup_exit status fuel v h
    exact ⟨n, hn⟩
  · intro hex
    exact ⟨Nat.find hex + 1, _, setup_some status (Nat.find hex) _ (Nat.find_spec hex)
      (fun i hi => Nat.find_min hex hi) (Nat.lt_succ_self _)⟩
  · intro fuel v h
    obtain ⟨n, hlt, hn, hfirst⟩ := setup_exit status fuel v h
    rw [setup_some status n fuel hn hfirst hlt] at h
    cases h
    simp [statusPolled, List.filterMap_append]

/-- C7 at a stream that reports disconnected four times and connected from then on: the
loop has not exited after four polls, and it exits within five, on a connected
result. -/
theorem join_unbounded_witness :
    joinLoop (fun i => if i < 4 then WL_DISCONNECTED else WL_CONNECTED) 4 boot = none
      ∧ ∃ v, joinLoop (fun i => if i < 4 then WL_DISCONNECTED else WL_CONNECTED) 5 boot
            = some v
          ∧ v.trace.getLast? = some (Action.wifiStatus WL_CONNECTED) :=
  ⟨(join_unbounded (fun i => if i < 4 then WL_DISCONNECTED else WL_CONNECTED) boot).2.1 4
      (by decide),
    _, rfl,
    ((join_unbounded (fun i => if i < 4 then WL_DISCONNECTED else WL_CONNECTED) boot).2.2.1
      5 _ rfl).1⟩

/-- C8: the listener is constructed on port 81 and started on that port, and when the
first connected result has index `n` the trace of `setup` is `n` turns of poll, delay of
1000 ms and progress line, then the last poll: the delays requested are `n` times
1000 ms, 1000 * n ms in all. -/
theorem join_delay_total (status : Nat → wl_status_t) (n fuel : Nat)
    (hn : status n = WL_CONNECTED) (hfirst : ∀ i, i < n → status i ≠ WL_CONNECTED)
    (hfuel : n < fuel) :
    webSocket.port = 81
      ∧ ∃ w, setup status fuel boot = some w
          ∧ w.trace = [Action.serialBegin 115200, Action.wifiBegin ssid password]
              ++ joinTurns status 0 n
              ++ [Action.wifiStatus WL_CONNECTED, Action.serialPrintln "Connected to WiFi",
                  Action.wsBegin 81, Action.wsOnEvent]
          ∧ delaysRequested w = List.replicate n 1000
          ∧ (delaysRequested w).sum = 1000 * n := by
  have hd : delaysRequested (World.mk (n + 1) true true
      ([Action.serialBegin 115200, Action.wifiBegin ssid password]
        ++ joinTurns status 0 n
        ++ [Action.wifiStatus WL_CONNECTED, Action.serialPrintln "Connected to WiFi",
            Action.wsBegin 81, Action.wsOnEvent])) = List.replicate n 1000 := by
    have h := delaysRequested_joinTurns status 0 n 0 false false
    simp only [delaysRequested] at h
    simp [delaysRequested, List.filterMap_append, h]
  refine ⟨rfl, _, setup_some status n fuel hn hfirst hfuel, rfl, hd, ?_⟩
  rw [hd, List.sum_replicate, smul_eq_mul, Nat.mul_comm]

/-- C8 at a stream that reports disconnected three times and connected from then on:
three delays of 1000 ms, 3000 ms in all. -/
theorem join_delay_total_witness :
    ∃ w, setup (fun i => if i < 3 then WL_DISCONNECTED else WL_CONNECTED) 4 boot = some w
      ∧ delaysRequested w = [1000, 1000, 1000]
      ∧ (delaysRequested w).sum = 3000 := by
  obtain ⟨_, w, hw, _, hd, hs⟩ :=
    join_delay_total (fun i => if i < 3 then WL_DISCONNECTED else WL_CONNECTED) 3 4
      (by decide) (by decide) (by decide)
  exact ⟨w, hw, hd, hs⟩

/-! ## Order of the join and of the service -/

/-- In a list made of a front without marked elements and a rest of marked elements,
every unmarked element stands before every marked one. -/
theorem before_of_split {α : Type} (front rest : List α) (P : α → Bool)
    (hf : ∀ a ∈ front, P a = false) (hr : ∀ a ∈ rest, P a = true)
    (i j : Nat) (a b : α) (hi : (front ++ rest)[i]? = some a)
    (hj : (front ++ rest)[j]? = some b) (ha : P a = true) (hb : P b = false) : j < i := by
  have h1 : front.length ≤ i := by
    by_contra hlt
    rw [List.getElem?_append_left (Nat.lt_of_not_le hlt)] at hi
    have := hf a (List.getElem?_mem hi)
    rw [ha] at this
    exact Bool.noConfusion this
  have h2 : j < front.length := by
    by_contra hge
    rw [List.getElem?_append_right (Nat.le_of_not_lt hge)] at hj
    have := hr b (List.getElem?_mem hj)
    rw [hb] at this
    exact Bool.noConfusion this
  omega

theorem specEffects_service (num : Nat) (type : WStype_t) :
    ∀ a ∈ specEffects num type, a.isService = true := by
  cases type <;> simp [specEffects, Action.isService, Action.isListener]

/-- One call of `loop()` only adds service actions to the trace, and keeps the listener
as it is. -/
theorem loop_adds_service (pending : List Event) (w : World) :
    ∃ ext, loop pending w = { w with trace := w.trace ++ ext }
      ∧ ∀ a ∈ ext, a.isService = true := by
  by_cases hc : (w.listening && w.handlerSet) = true
  · refine ⟨Action.wsLoop :: pending.flatMap (fun e => specEffects e.num e.type), ?_, ?_⟩
    · simp only [loop, WebSocketsServer.loop, hc, if_true, dispatch_eq]
      simp
    · intro a ha
      rcases List.mem_cons.1 ha with rfl | ha
      · rfl
      · obtain ⟨e, _, he⟩ := List.mem_flatMap.1 ha
        exact specEffects_service e.num e.type a he
  · refine ⟨[Action.wsLoop], ?_, ?_⟩
    · simp [loop, WebSocketsServer.loop, hc]
    · intro a ha
      rcases List.mem_singleton.1 ha with rfl
      rfl

theorem rounds_add_service (rounds : List (List Event)) (w : World) :
    ∃ ext, (rounds.foldl (fun acc evs => loop evs acc) w).trace = w.trace ++ ext
      ∧ ∀ a ∈ ext, a.isService = true := by
  induction rounds generalizing w with
  | nil => exact ⟨[], by simp, by simp⟩
  | cons evs rounds ih =>
    obtain ⟨e1, h1, s1⟩ := loop_adds_service evs w
    obtain ⟨e2, h2, s2⟩ := ih (loop evs w)
    refine ⟨e1 ++ e2, ?_, ?_⟩
    · rw [List.foldl_cons, h2, h1]
      simp [List.append_assoc]
    · intro a ha
      rcases List.mem_append.1 ha with ha | ha
      · exact s1 a ha
      · exact s2 a ha

/-- When `setup` (or the whole run) has returned, every service action of its trace
comes after every status poll and after the line "Connected to WiFi"; `setup` itself
sends no frame and handles no event. -/
theorem service_after_join_returned (status : Nat → wl_status_t) (fuel : Nat) :
    (∀ w, setup status fuel boot = some w →
        (∀ (i j : Nat) (a b : Action), w.trace[i]? = some a → w.trace[j]? = some b →
            a.isListener = true → b.isJoin = true → j < i)
          ∧ framesSent w = [] ∧ "Client connected" ∉ serialLines w
          ∧ w.listening = true ∧ w.handlerSet = true)
      ∧ (∀ rounds w, arduinoMain status fuel rounds = some w →
          ∀ (i j : Nat) (a b : Action), w.trace[i]? = some a → w.trace[j]? = some b →
            a.isService = true → b.isJoin = true → j < i) := by
  have key : ∀ (n : Nat) (ext : List Action), (∀ a ∈ ext, a.isService = true) →
      ∀ (i j : Nat) (a b : Action),
        ([Action.serialBegin 115200, Action.wifiBegin ssid password]
            ++ joinTurns status 0 n
            ++ [Action.wifiStatus WL_CONNECTED, Action.serialPrintln "Connected to WiFi",
                Action.wsBegin 81, Action.wsOnEvent] ++ ext)[i]? = some a →
        ([Action.serialBegin 115200, Action.wifiBegin ssid password]
            ++ joinTurns status 0 n
            ++ [Action.wifiStatus WL_CONNECTED, Action.serialPrintln "Connected to WiFi",
                Action.wsBegin 81, Action.wsOnEvent] ++ ext)[j]? = some b →
        a.isService = true → b.isJoin = true → j < i := by
    intro n ext hext i j a b hi hj ha hb
    have hsplit : [Action.serialBegin 115200, Action.wifiBegin ssid password]
            ++ joinTurns status 0 n
            ++ [Action.wifiStatus WL_CONNECTED, Action.serialPrintln "Connected to WiFi",
                Action.wsBegin 81, Action.wsOnEvent] ++ ext
        = ([Action.serialBegin 115200, Action.wifiBegin ssid password]
            ++ joinTurns status 0 n
            ++ [Action.wifiStatus WL_CONNECTED, Action.serialPrintln "Connected to WiFi"])
          ++ ([Action.wsBegin 81, Action.wsOnEvent] ++ ext) := by
      simp [List.append_assoc]
    rw [hsplit] at hi hj
    have hb2 : b.isService = false := by
      cases b <;> simp_all [Action.isService, Action.isJoin, Action.isPoll, Action.isListener]
    refine before_of_split _ _ Action.isService ?_ ?_ i j a b hi hj ha hb2
    · intro x hx
      simp only [List.mem_append, List.mem_cons, List.mem_singleton, List.not_mem_nil,
        or_false] at hx
      rcases hx with ((rfl | rfl) | hx) | (rfl | rfl)
      · rfl
      · rfl
      · exact joinTurns_not_service status 0 n x hx
      · rfl
      · decide
    · intro x hx
      simp only [List.mem_append, List.mem_cons, List.mem_singleton, List.not_mem_nil,
        or_false] at hx
      rcases hx with (rfl | rfl) | hx
      · rfl
      · rfl
      · exact hext x hx
  constructor
  · intro w hw
    obtain ⟨n, hlt, hn, hfirst⟩ := setup_exit status fuel w hw
    rw [setup_some status n fuel hn hfirst hlt] at hw
    cases hw
    refine ⟨?_, ?_, ?_, rfl, rfl⟩
    · intro i j a b hi hj ha hb
      have := key n [] (by simp) i j a b (by simpa using hi) (by simpa using hj)
        (by simp [Action.isService, ha]) hb
      exact this
    · have h : ∀ p m, List.filterMap (fun a => match a with
          | Action.wsSendTXT k d => some (k, d)
          | _ => none) (joinTurns status p m) = [] := by
        intro p m
        induction m generalizing p with
        | zero => rfl
        | succ m ih => simp [joinTurns, ih]
      simp [framesSent, List.filterMap_append, h]
    · have h := serialLines_joinTurns status 0 n 0 false false
      simp only [serialLines] at h
      simp [serialLines, List.filterMap_append, h]
  · intro rounds w hw
    cases hs : setup status fuel boot with
    | none => simp [arduinoMain, hs] at hw
    | some u =>
      obtain ⟨n, hlt, hn, hfirst⟩ := setup_exit status fuel u hs
      obtain ⟨ext, hext, hserv⟩ := rounds_add_service rounds u
      rw [setup_some status n fuel hn hfirst hlt] at hs
      cases hs
      simp only [arduinoMain, setup_some status n fuel hn hfirst hlt, Option.map_some',
        Option.some.injEq] at hw
      subst hw
      rw [hext]
      exact key n ext hserv

/-! ## The run before `setup` has returned -/

theorem joinLoopReach_succ (status : Nat → wl_status_t) (fuel : Nat) (w : World) :
    joinLoopReach status (fuel + 1) w
      = if status w.polls ≠ WL_CONNECTED then
          joinLoopReach status fuel
            { w with
              polls := w.polls + 1
              trace := w.trace ++ [Action.wifiStatus (status w.polls), Action.delay 1000,
                Action.serialPrintln "Connecting to WiFi..."] }
        else
          ({ w with
            polls := w.polls + 1
            trace := w.trace ++ [Action.wifiStatus (status w.polls)] }, true) := by
  simp [joinLoopReach, WiFi_status, Serial_println, delay]

/-- While no poll has reported connected, the loop is at its head after `k` full
turns. -/
theorem joinLoopReach_turns (status : Nat → wl_status_t) (k : Nat) (w : World)
    (h : ∀ i, i < k → status (w.polls + i) ≠ WL_CONNECTED) :
    joinLoopReach status k w
      = ({ w with
            polls := w.polls + k
            trace := w.trace ++ joinTurns status w.polls k }, false) := by
  induction k generalizing w with
  | zero => simp [joinLoopReach, joinTurns]
  | succ k ih =>
    have h0 : status w.polls ≠ WL_CONNECTED := by simpa using h 0 (Nat.succ_pos k)
    rw [joinLoopReach_succ, if_pos h0]
    rw [ih _ (by
      intro i hi
      have := h (i + 1) (Nat.succ_lt_succ hi)
      simpa [Nat.add_assoc, Nat.add_comm 1 i] using this)]
    simp [joinTurns, Nat.add_assoc, Nat.add_comm 1 k]

theorem joinLoopReach_exit (status : Nat → wl_status_t) (n fuel : Nat) (w : World)
    (hn : status (w.polls + n) = WL_CONNECTED)
    (hfirst : ∀ i, i < n → status (w.polls + i) ≠ WL_CONNECTED) (hfuel : n < fuel) :
    joinLoopReach status fuel w
      = ({ w with
            polls := w.polls + n + 1
            trace := w.trace ++ joinTurns status w.polls n
              ++ [Action.wifiStatus WL_CONNECTED] }, true) := by
  induction n generalizing w fuel with
  | zero =>
    obtain ⟨fuel, rfl⟩ : ∃ m, fuel = m + 1 := ⟨fuel - 1, by omega⟩
    have h0 : status w.polls = WL_CONNECTED := by simpa using hn
    rw [joinLoopReach_succ]
    simp [h0, joinTurns]
  | succ n ih =>
    obtain ⟨fuel, rfl⟩ : ∃ m, fuel = m + 1 := ⟨fuel - 1, by omega⟩
    have h0 : status w.polls ≠ WL_CONNECTED := by simpa using hfirst 0 (Nat.succ_pos n)
    rw [joinLoopReach_succ, if_pos h0]
    rw [ih fuel _ (by simpa [Nat.add_assoc, Nat.add_comm 1 n] using hn)
      (by
        intro i hi
        have := hfirst (i + 1) (Nat.succ_lt_succ hi)
        simpa [Nat.add_assoc, Nat.add_comm 1 i] using this)
      (by omega)]
    simp [joinTurns, Nat.add_assoc, Nat.add_comm 1 n]

/-- The state `setup` has reached after `fuel` polls none of which reported connected:
it is at the head of its loop, and nothing after the loop has run. -/
theorem setupReach_turns (status : Nat → wl_status_t) (fuel : Nat)
    (h : ∀ i, i < fuel → status i ≠ WL_CONNECTED) :
    setupReach status fuel boot
      = (World.mk fuel false false
          ([Action.serialBegin 115200, Action.wifiBegin ssid password]
            ++ joinTurns status 0 fuel), false) := by
  have h1 := joinLoopReach_turns status fuel
    (WiFi_begin ssid password (Serial_begin 115200 boot))
    (by simpa [WiFi_begin, Serial_begin, boot] using h)
  simp only [setupReach, h1]
  simp [WiFi_begin, Serial_begin, boot]

theorem setupReach_exit (status : Nat → wl_status_t) (n fuel : Nat)
    (hn : status n = WL_CONNECTED) (hfirst : ∀ i, i < n → status i ≠ WL_CONNECTED)
    (hfuel : n < fuel) :
    setupReach status fuel boot
      = (World.mk (n + 1) true true
          ([Action.serialBegin 115200, Action.wifiBegin ssid password]
            ++ joinTurns status 0 n
            ++ [Action.wifiStatus WL_CONNECTED, Action.serialPrintln "Connected to WiFi",
                Action.wsBegin 81, Action.wsOnEvent]), true) := by
  have h := joinLoopReach_exit status n fuel
    (WiFi_begin ssid password (Serial_begin 115200 boot))
    (by simpa [WiFi_begin, Serial_begin, boot] using hn)
    (by simpa [WiFi_begin, Serial_begin, boot] using hfirst) hfuel
  simp only [setupReach, h]
  simp [WiFi_begin, Serial_begin, boot, Serial_println, WebSocketsServer.begin,
    WebSocketsServer.onEvent, webSocket]

/-- Within a budget of polls, either none reports connected or one is the first to. -/
theorem first_connected_or_none (status : Nat → wl_status_t) (fuel : Nat) :
    (∀ i, i < fuel → status i ≠ WL_CONNECTED)
      ∨ ∃ n, n < fuel ∧ status n = WL_CONNECTED
          ∧ ∀ i, i < n → status i ≠ WL_CONNECTED := by
  by_cases hex : ∃ i, i < fuel ∧ status i = WL_CONNECTED
  · right
    refine ⟨Nat.find hex, (Nat.find_spec hex).1, (Nat.find_spec hex).2, ?_⟩
    intro i hi hc
    exact Nat.find_min hex hi ⟨Nat.lt_trans hi (Nat.find_spec hex).1, hc⟩
  · left
    intro i hi hc
    exact hex ⟨i, hi, hc⟩

theorem isJoin_not_service (b : Action) (hb : b.isJoin = true) : b.isService = false := by
  cases b <;> simp_all [Action.isService, Action.isJoin, Action.isPoll, Action.isListener]

theorem isPoll_isJoin (b : Action) (hb : b.isPoll = true) : b.isJoin = true := by
  simp [Action.isJoin, hb]

/-- A trace without service actions satisfies the order of the join. -/
theorem joinPrecedes_of_no_service (t : List Action)
    (h : ∀ a ∈ t, a.isService = false) : joinPrecedes t := by
  intro i a hi ha
  have := h a (List.getElem?_mem hi)
  rw [ha] at this
  exact Bool.noConfusion this

/-- A trace made of join actions, the connected poll, the line "Connected to WiFi" and
then service actions only satisfies the order of the join. -/
theorem joinPrecedes_of_split (pre rest : List Action)
    (hpre : ∀ a ∈ pre, a.isService = false) (hrest : ∀ a ∈ rest, a.isService = true) :
    joinPrecedes (pre ++ Action.wifiStatus WL_CONNECTED
      :: Action.serialPrintln "Connected to WiFi" :: rest) := by
  have hk : (pre ++ Action.wifiStatus WL_CONNECTED
      :: Action.serialPrintln "Connected to WiFi" :: rest)[pre.length]?
        = some (Action.wifiStatus WL_CONNECTED) := by
    rw [List.getElem?_append_right (Nat.le_refl _)]
    simp
  have hm : (pre ++ Action.wifiStatus WL_CONNECTED
      :: Action.serialPrintln "Connected to WiFi" :: rest)[pre.length + 1]?
        = some (Action.serialPrintln "Connected to WiFi") := by
    rw [List.getElem?_append_right (Nat.le_succ _)]
    simp
  have hlow : ∀ (j : Nat) (b : Action),
      (pre ++ Action.wifiStatus WL_CONNECTED
        :: Action.serialPrintln "Connected to WiFi" :: rest)[j]? = some b →
      b.isService = false → j ≤ pre.length + 1 := by
    intro j b hj hb
    by_contra hgt
    have h2 : pre.length + 2 ≤ j := by omega
    obtain ⟨d, rfl⟩ : ∃ d, j = pre.length + 2 + d := ⟨j - (pre.length + 2), by omega⟩
    rw [List.getElem?_append_right (by omega)] at hj
    have e : pre.length + 2 + d - pre.length = d + 2 := by omega
    rw [e] at hj
    simp only [List.getElem?_cons_succ] at hj
    have := hrest b (List.getElem?_mem hj)
    rw [hb] at this
    exact Bool.noConfusion this
  intro i a hi ha
  have hi2 : pre.length + 2 ≤ i := by
    by_contra hlt
    have hcase : i < pre.length ∨ i = pre.length ∨ i = pre.length + 1 := by omega
    rcases hcase with h | h | h
    · rw [List.getElem?_append_left h] at hi
      have := hpre a (List.getElem?_mem hi)
      rw [ha] at this
      exact Bool.noConfusion this
    · subst h
      rw [hk] at hi
      cases hi
      exact Bool.noConfusion ha
    · subst h
      rw [hm] at hi
      cases hi
      revert ha
      decide
  refine ⟨pre.length, pre.length + 1, Nat.lt_succ_self _, by omega, hk, hm, ?_, ?_⟩
  · intro j b hj hb
    have h1 := hlow j b hj (isJoin_not_service b (isPoll_isJoin b hb))
    by_contra hgt
    have : j = pre.length + 1 := by omega
    subst this
    rw [hm] at hj
    cases hj
    exact Bool.noConfusion hb
  · intro j b hj hb
    exact hlow j b hj (isJoin_not_service b hb)

/-- C9: at every stage of the run, whether `setup` has returned or is still in its
loop after `fuel` polls, every call on the listener and every log line of the handler
stands in the trace after a status poll with result `WL_CONNECTED`, which is the last
status poll, and after the line "Connected to WiFi".  `setup` has returned within
`fuel` polls exactly when one of them reported connected; until then the trace holds no
listener action, no frame is sent, and the listener is neither started nor given its
handler; once it has, the trace of `setup` is the join turns, the connected poll, the
line "Connected to WiFi", and only then `webSocket.begin` and `webSocket.onEvent`. -/
theorem listener_after_join (status : Nat → wl_status_t) (fuel : Nat)
    (rounds : List (List Event)) :
    setup status fuel boot
        = (if (setupReach status fuel boot).2 = true
            then some (setupReach status fuel boot).1 else none)
      ∧ arduinoMain status fuel rounds
        = (if (setupReach status fuel boot).2 = true
            then some (arduinoReach status fuel rounds) else none)
      ∧ joinPrecedes (setupReach status fuel boot).1.trace
      ∧ joinPrecedes (arduinoReach status fuel rounds).trace
      ∧ ((setupReach status fuel boot).2 = false
          ↔ ∀ i, i < fuel → status i ≠ WL_CONNECTED)
      ∧ ((setupReach status fuel boot).2 = false →
          arduinoReach status fuel rounds = (setupReach status fuel boot).1
            ∧ (setupReach status fuel boot).1.trace
              = [Action.serialBegin 115200, Action.wifiBegin ssid password]
                ++ joinTurns status 0 fuel
            ∧ (∀ a ∈ (setupReach status fuel boot).1.trace, a.isService = false)
            ∧ framesSent (setupReach status fuel boot).1 = []
            ∧ (setupReach status fuel boot).1.listening = false
            ∧ (setupReach status fuel boot).1.handlerSet = false)
      ∧ ((setupReach status fuel boot).2 = true →
          ∃ n, n < fuel ∧ status n = WL_CONNECTED
            ∧ (∀ i, i < n → status i ≠ WL_CONNECTED)
            ∧ (setupReach status fuel boot).1.trace
              = [Action.serialBegin 115200, Action.wifiBegin ssid password]
                ++ joinTurns status 0 n
                ++ [Action.wifiStatus WL_CONNECTED,
                    Action.serialPrintln "Connected to WiFi",
                    Action.wsBegin 81, Action.wsOnEvent]
            ∧ framesSent (setupReach status fuel boot).1 = []
            ∧ (setupReach status fuel boot).1.listening = true
            ∧ (setupReach status fuel boot).1.handlerSet = true) := by
  have hpre : ∀ m, ∀ a ∈ [Action.serialBegin 115200, Action.wifiBegin ssid password]
      ++ joinTurns status 0 m, a.isService = false := by
    intro m a ha
    rcases List.mem_append.1 ha with h | h
    · simp only [List.mem_cons, List.mem_singleton, List.not_mem_nil, or_false] at h
      rcases h with rfl | rfl <;> rfl
    · exact joinTurns_not_service status 0 m a h
  have hnoframe : ∀ (l : List Action), (∀ a ∈ l, a.isService = false) →
      List.filterMap (fun a => match a with
        | Action.wsSendTXT k d => some (k, d)
        | _ => none) l = [] := by
    intro l hl
    rw [List.filterMap_eq_nil_iff]
    intro a ha
    have := hl a ha
    cases a <;> simp_all [Action.isService, Action.isListener]
  rcases first_connected_or_none status fuel with hnone | ⟨n, hlt, hn, hfirst⟩
  · have hR := setupReach_turns status fuel hnone
    have hS := setup_none status fuel hnone
    have hA : arduinoReach status fuel rounds = (setupReach status fuel boot).1 := by
      simp [arduinoReach, hR]
    refine ⟨?_, ?_, ?_, ?_, ?_, ?_, ?_⟩
    · simp [hS, hR]
    · simp [arduinoMain, hS, hR]
    · rw [hR]
      exact joinPrecedes_of_no_service _ (hpre fuel)
    · rw [hA, hR]
      exact joinPrecedes_of_no_service _ (hpre fuel)
    · simp only [hR, true_iff]
      exact hnone
    · intro _
      refine ⟨hA, ?_, ?_, ?_, ?_, ?_⟩
      · rw [hR]
      · rw [hR]
        exact hpre fuel
      · rw [hR]
        exact hnoframe _ (hpre fuel)
      · rw [hR]
      · rw [hR]
    · intro h
      rw [hR] at h
      exact Bool.noConfusion h
  · have hR := setupReach_exit status n fuel hn hfirst hlt
    have hS := setup_some status n fuel hn hfirst hlt
    have hsplit : ∀ ext : List Action,
        [Action.serialBegin 115200, Action.wifiBegin ssid password]
            ++ joinTurns status 0 n
            ++ [Action.wifiStatus WL_CONNECTED, Action.serialPrintln "Connected to WiFi",
                Action.wsBegin 81, Action.wsOnEvent] ++ ext
          = ([Action.serialBegin 115200, Action.wifiBegin ssid password]
              ++ joinTurns status 0 n)
            ++ Action.wifiStatus WL_CONNECTED :: Action.serialPrintln "Connected to WiFi"
              :: ([Action.wsBegin 81, Action.wsOnEvent] ++ ext) := by
      intro ext
      simp [List.append_assoc]
    have hord : ∀ ext : List Action, (∀ a ∈ ext, a.isService = true) →
        joinPrecedes ([Action.serialBegin 115200, Action.wifiBegin ssid password]
            ++ joinTurns status 0 n
            ++ [Action.wifiStatus WL_CONNECTED, Action.serialPrintln "Connected to WiFi",
                Action.wsBegin 81, Action.wsOnEvent] ++ ext) := by
      intro ext hext
      rw [hsplit]
      apply joinPrecedes_of_split _ _ (hpre n)
      intro x hx
      simp only [List.mem_append, List.mem_cons, List.mem_singleton, List.not_mem_nil,
        or_false] at hx
      rcases hx with (rfl | rfl) | hx
      · rfl
      · rfl
      · exact hext x hx
    obtain ⟨ext, hext, hserv⟩ := rounds_add_service rounds (setupReach status fuel boot).1
    have hA : arduinoReach status fuel rounds
        = rounds.foldl (fun acc evs => loop evs acc) (setupReach status fuel boot).1 := by
      simp [arduinoReach, hR]
    refine ⟨?_, ?_, ?_, ?_, ?_, ?_, ?_⟩
    · simp [hS, hR]
    · simp [arduinoMain, hS, hA, hR]
    · have := hord [] (by simp)
      rw [hR]
      simpa using this
    · rw [hA, hext, hR]
      exact hord ext hserv
    · simp only [hR]
      constructor
      · intro h
        exact Bool.noConfusion h
      · intro h
        exact absurd hn (h n hlt)
    · intro h
      rw [hR] at h
      exact Bool.noConfusion h
    · intro _
      refine ⟨n, hlt, hn, hfirst, ?_, ?_, ?_, ?_⟩
      · rw [hR]
      · rw [hR]
        have h0 := hnoframe _ (hpre n)
        simp only [framesSent, List.filterMap_append, h0]
        rfl
      · rw [hR]
      · rw [hR]

/-- C9 at two streams with a budget of three polls.  One never reports connected: no
listener action is in the trace and the listener is not started.  The other reports
disconnected once and then connected: `setup` returns with the listener started, and in
its trace the connected poll (index 5) and the line "Connected to WiFi" (index 6) stand
before `webSocket.begin` (index 7). -/
theorem listener_after_join_witness :
    ((∀ a ∈ (setupReach (fun _ => WL_DISCONNECTED) 3 boot).1.trace, a.isService = false)
        ∧ framesSent (setupReach (fun _ => WL_DISCONNECTED) 3 boot).1 = []
        ∧ (setupReach (fun _ => WL_DISCONNECTED) 3 boot).1.listening = false)
      ∧ (∃ w, setup (fun i => if i < 1 then WL_DISCONNECTED else WL_CONNECTED) 3 boot
            = some w
          ∧ w.trace[5]? = some (Action.wifiStatus WL_CONNECTED)
          ∧ w.trace[6]? = some (Action.serialPrintln "Connected to WiFi")
          ∧ w.trace[7]? = some (Action.wsBegin 81)
          ∧ w.listening = true) :=
  ⟨⟨((listener_after_join (fun _ => WL_DISCONNECTED) 3 []).2.2.2.2.2.1 (by decide)).2.2.1,
      ((listener_after_join (fun _ => WL_DISCONNECTED) 3 []).2.2.2.2.2.1
        (by decide)).2.2.2.1,
      ((listener_after_join (fun _ => WL_DISCONNECTED) 3 []).2.2.2.2.2.1
        (by decide)).2.2.2.2.1⟩,
    _, (listener_after_join (fun i => if i < 1 then WL_DISCONNECTED else WL_CONNECTED)
          3 []).1,
    by decide, by decide, by decide, by decide⟩

end Sketch
